import Mathlib

/-!
Verification of the highway path-planning loop (`src/main.cpp`).

The embedding works over exact rationals: every C++ `double` is modelled as a
`ℚ`, `sqrt` as `Rat.sqrt` (exact on perfect squares), and the fallible
"closest vehicle" lookup (which returns an empty vector when nothing
qualifies) as an `Option`.
-/

namespace PathPlan

/-- One `sensor_fusion` entry, in the array order of the source:
`[id, x, y, vx, vy, s, d]`. -/
structure Veh where
  id : ℚ
  x : ℚ
  y : ℚ
  vx : ℚ
  vy : ℚ
  s : ℚ
  d : ℚ
deriving DecidableEq, Repr

/-- `get_vehicle_speed`: `sqrt(vehicle[3]*vehicle[3] + vehicle[4]*vehicle[4])`. -/
def get_vehicle_speed (v : Veh) : ℚ :=
  Rat.sqrt (v.vx * v.vx + v.vy * v.vy)

/-- `get_vehicle_dist`: `(vehicle[5] + prev_size * .02 * speed) - s`. -/
def get_vehicle_dist (v : Veh) (s : ℚ) (prev_size : ℕ) : ℚ :=
  v.s + (prev_size : ℚ) * 0.02 * get_vehicle_speed v - s

/-- The filter applied to each sensor-fusion entry in `get_vehicle`:
the lane-band test `2+4*lane-2 < d < 2+4*lane+2`, then the signed-buffer
distance window (`0 < dist < buffer` ahead, `buffer < dist < 0` behind). -/
def vehMatches (s : ℚ) (lane : ℤ) (prev_size : ℕ) (buffer : ℚ) (v : Veh) : Bool :=
  decide (v.d < 2 + 4 * (lane : ℚ) + 2 ∧ v.d > 2 + 4 * (lane : ℚ) - 2) &&
    (if 0 ≤ buffer then
      decide (0 < get_vehicle_dist v s prev_size ∧ get_vehicle_dist v s prev_size < buffer)
    else
      decide (get_vehicle_dist v s prev_size < 0 ∧ buffer < get_vehicle_dist v s prev_size))

/-- Keep whichever of two vehicles has the smaller raw `s` entry. -/
def minByS (b w : Veh) : Veh := if w.s < b.s then w else b

/-- Keep whichever of two vehicles has the larger raw `s` entry. -/
def maxByS (b w : Veh) : Veh := if w.s > b.s then w else b

/-- Front of the ascending sort by the raw `s` entry (`veh[5]`): an element of
the list with minimal `s`. -/
def selMin : List Veh → Option Veh
  | [] => none
  | v :: vs => some (vs.foldl minByS v)

/-- Front of the descending sort by the raw `s` entry: an element with
maximal `s`. -/
def selMax : List Veh → Option Veh
  | [] => none
  | v :: vs => some (vs.foldl maxByS v)

/-- `get_vehicle`: collect the entries passing the lane-band and
distance-window tests, sort by the raw `s` entry (ascending for a
nonnegative buffer, descending for a negative one) and return the front,
or `none` when nothing qualifies. -/
def get_vehicle (s : ℚ) (lane : ℤ) (sensor_fusion : List Veh) (prev_size : ℕ)
    (buffer : ℚ) : Option Veh :=
  let found := sensor_fusion.filter (vehMatches s lane prev_size buffer)
  if 0 ≤ buffer then selMin found else selMax found

/-- The cost contribution of a lane's front vehicle in `behavior`:
`w_speed * (49.5 - 2.24*speed) + w_dist / dist` when a front vehicle was
found, `0` otherwise. -/
def frontTerm (w_speed w_dist s : ℚ) (prev_size : ℕ) : Option Veh → ℚ
  | none => 0
  | some v => w_speed * (49.5 - 2.24 * get_vehicle_speed v)
      + w_dist / get_vehicle_dist v s prev_size

/-- The full cost `behavior` computes for lane `l` when the ego occupies
`egoLane`: the front-vehicle term, minus the stay bonus `w_stay` on the
ego's own lane, plus the collision penalty `w_coll` when a vehicle is
closely behind in a lane other than the ego's (rear window `-buffer/3`). -/
def laneCost (s : ℚ) (sensor_fusion : List Veh) (prev_size : ℕ)
    (buffer w_dist w_speed w_stay w_coll : ℚ) (egoLane l : ℤ) : ℚ :=
  frontTerm w_speed w_dist s prev_size (get_vehicle s l sensor_fusion prev_size buffer)
    - (if egoLane = l then w_stay else 0)
    + (if (get_vehicle s l sensor_fusion prev_size (-buffer / 3)).isSome ∧ egoLane ≠ l
        then w_coll else 0)

/-- The lane-selection if-chain of `behavior`, applied in source order to the
possibly already-updated lane variable:
`lane==0 ∧ mid<left → lane++`; `lane==1 ∧ right<mid ∧ right≤left → lane++`;
`lane==2 ∧ mid<right → lane--`; `lane==1 ∧ left<mid ∧ left<right → lane--`. -/
def laneSelect (left_cost mid_cost right_cost : ℚ) (lane : ℤ) : ℤ :=
  let lane1 := if lane = 0 ∧ mid_cost < left_cost then lane + 1 else lane
  let lane2 := if lane1 = 1 ∧ right_cost < mid_cost ∧ right_cost ≤ left_cost
      then lane1 + 1 else lane1
  let lane3 := if lane2 = 2 ∧ mid_cost < right_cost then lane2 - 1 else lane2
  if lane3 = 1 ∧ left_cost < mid_cost ∧ left_cost < right_cost then lane3 - 1 else lane3

/-- `behavior`: computes the three lane costs, runs the lane-selection
chain, then adjusts the reference speed.  The C++ `switch` selecting
`target_vehicle` has no `break` statements, so every case of `lane` in
`{0,1,2}` falls through to the final assignment `target_vehicle =
right_front_car`; any other lane value leaves `target_vehicle` empty.
Returns the updated `(ref_vel, lane)` pair. -/
def behavior (s d : ℚ) (sensor_fusion : List Veh) (ref_vel : ℚ) (lane : ℤ)
    (prev_size : ℕ) (buffer w_dist w_speed w_stay w_coll : ℚ) : ℚ × ℤ :=
  let right_front_car := get_vehicle s 2 sensor_fusion prev_size buffer
  let left_cost := laneCost s sensor_fusion prev_size buffer w_dist w_speed w_stay w_coll lane 0
  let mid_cost := laneCost s sensor_fusion prev_size buffer w_dist w_speed w_stay w_coll lane 1
  let right_cost := laneCost s sensor_fusion prev_size buffer w_dist w_speed w_stay w_coll lane 2
  let newLane := laneSelect left_cost mid_cost right_cost lane
  -- switch(lane) with fall-through: cases 0 and 1 run every later assignment
  let target_vehicle : Option Veh :=
    if newLane = 0 then right_front_car
    else if newLane = 1 then right_front_car
    else if newLane = 2 then right_front_car
    else none
  let new_ref_vel :=
    match target_vehicle with
    | some tv =>
        if ref_vel / 2.24 > get_vehicle_speed tv then ref_vel - 0.224
        else if ref_vel / 2.24 < get_vehicle_speed tv - 0.5 then ref_vel + 0.224
        else ref_vel
    | none => if ref_vel < 49.5 then ref_vel + 0.224 else ref_vel
  (new_ref_vel, newLane)

/-- `main` starts in lane 1. -/
def initialLane : ℤ := 1

/-- `main` starts with zero reference speed. -/
def initialRefVel : ℚ := 0

/-- The divisor `.02 * ref_vel / 2.24` used to derive the per-step count
`N = target_dist / (.02*ref_vel/2.24)` in the trajectory loop. -/
def stepDivisor (ref_vel : ℚ) : ℚ := 0.02 * ref_vel / 2.24

/-- One pass of the `for (i = 1; i <= 50 - prev_size; i++)` point-generation
loop, carrying `x_add_on`.  `f` is the fitted curve (the `tk::spline`, whose
sources are not part of the repository core) evaluated in the local frame;
`cosy`/`siny` model `cos(ref_yaw)`/`sin(ref_yaw)`. -/
def genPoints (f : ℚ → ℚ) (target_x target_dist ref_vel cosy siny ref_x ref_y : ℚ) :
    ℕ → ℚ → List (ℚ × ℚ)
  | 0, _ => []
  | n + 1, x_add_on =>
      let N := target_dist / stepDivisor ref_vel
      let x_point := x_add_on + target_x / N
      let y_point := f x_point
      (x_point * cosy - y_point * siny + ref_x,
       x_point * siny + y_point * cosy + ref_y)
        :: genPoints f target_x target_dist ref_vel cosy siny ref_x ref_y n x_point

/-- The output trajectory of one cycle: all carried-over previous-path
points, followed by `50 - prev.length` freshly generated points (the C++
loop `for (i = 1; i <= 50 - prev_size; i++)` runs `max 0 (50 - prev_size)`
times, which is exactly `ℕ` subtraction). -/
def nextVals (prev : List (ℚ × ℚ)) (f : ℚ → ℚ) (ref_vel cosy siny ref_x ref_y : ℚ) :
    List (ℚ × ℚ) :=
  let target_x : ℚ := 30
  let target_y := f target_x
  let target_dist := Rat.sqrt (target_x * target_x + target_y * target_y)
  prev ++ genPoints f target_x target_dist ref_vel cosy siny ref_x ref_y
    (50 - prev.length) 0

/-! ### Helper lemmas -/

/-- A vehicle with zero lateral velocity and nonnegative forward velocity has
speed exactly `vx`. -/
theorem speed_vy0 (v : Veh) (h : v.vy = 0) (h2 : 0 ≤ v.vx) : get_vehicle_speed v = v.vx := by
  rw [get_vehicle_speed, h, show v.vx * v.vx + 0 * 0 = v.vx * v.vx by ring,
    Rat.sqrt_eq, abs_of_nonneg h2]

/-- Vehicle speeds are nonnegative. -/
theorem speed_nonneg (v : Veh) : 0 ≤ get_vehicle_speed v :=
  Rat.sqrt_nonneg _

theorem foldl_minByS_mem (l : List Veh) : ∀ b : Veh,
    l.foldl minByS b = b ∨ l.foldl minByS b ∈ l := by
  induction l with
  | nil => intro b; exact Or.inl rfl
  | cons a l ih =>
    intro b
    simp only [List.foldl_cons]
    rcases ih (minByS b a) with h | h
    · rw [h]; unfold minByS; split_ifs
      · exact Or.inr (List.mem_cons_self a l)
      · exact Or.inl rfl
    · exact Or.inr (List.mem_cons_of_mem a h)

theorem foldl_minByS_le (l : List Veh) : ∀ b : Veh,
    (l.foldl minByS b).s ≤ b.s ∧ ∀ w ∈ l, (l.foldl minByS b).s ≤ w.s := by
  induction l with
  | nil => intro b; exact ⟨le_refl _, by simp⟩
  | cons a l ih =>
    intro b
    simp only [List.foldl_cons]
    obtain ⟨h1, h2⟩ := ih (minByS b a)
    have hba : (minByS b a).s ≤ b.s ∧ (minByS b a).s ≤ a.s := by
      unfold minByS; split_ifs with hc
      · exact ⟨le_of_lt hc, le_refl _⟩
      · exact ⟨le_refl _, le_of_not_lt hc⟩
    refine ⟨le_trans h1 hba.1, ?_⟩
    intro w hw
    rcases List.mem_cons.mp hw with rfl | hw
    · exact le_trans h1 hba.2
    · exact h2 w hw

theorem foldl_maxByS_mem (l : List Veh) : ∀ b : Veh,
    l.foldl maxByS b = b ∨ l.foldl maxByS b ∈ l := by
  induction l with
  | nil => intro b; exact Or.inl rfl
  | cons a l ih =>
    intro b
    simp only [List.foldl_cons]
    rcases ih (maxByS b a) with h | h
    · rw [h]; unfold maxByS; split_ifs
      · exact Or.inr (List.mem_cons_self a l)
      · exact Or.inl rfl
    · exact Or.inr (List.mem_cons_of_mem a h)

theorem foldl_maxByS_ge (l : List Veh) : ∀ b : Veh,
    b.s ≤ (l.foldl maxByS b).s ∧ ∀ w ∈ l, w.s ≤ (l.foldl maxByS b).s := by
  induction l with
  | nil => intro b; exact ⟨le_refl _, by simp⟩
  | cons a l ih =>
    intro b
    simp only [List.foldl_cons]
    obtain ⟨h1, h2⟩ := ih (maxByS b a)
    have hba : b.s ≤ (maxByS b a).s ∧ a.s ≤ (maxByS b a).s := by
      unfold maxByS; split_ifs with hc
      · exact ⟨le_of_lt hc, le_refl _⟩
      · exact ⟨le_refl _, le_of_not_lt hc⟩
    refine ⟨le_trans hba.1 h1, ?_⟩
    intro w hw
    rcases List.mem_cons.mp hw with rfl | hw
    · exact le_trans hba.2 h1
    · exact h2 w hw

theorem selMin_eq_none {l : List Veh} : selMin l = none ↔ l = [] := by
  cases l <;> simp [selMin]

theorem selMax_eq_none {l : List Veh} : selMax l = none ↔ l = [] := by
  cases l <;> simp [selMax]

theorem selMin_mem {l : List Veh} {v : Veh} (h : selMin l = some v) : v ∈ l := by
  match l with
  | [] => simp [selMin] at h
  | a :: t =>
    simp only [selMin, Option.some.injEq] at h
    subst h
    rcases foldl_minByS_mem t a with h | h
    · rw [h]; exact List.mem_cons_self a t
    · exact List.mem_cons_of_mem a h

theorem selMin_min {l : List Veh} {v : Veh} (h : selMin l = some v) :
    ∀ w ∈ l, v.s ≤ w.s := by
  match l with
  | [] => simp [selMin] at h
  | a :: t =>
    simp only [selMin, Option.some.injEq] at h
    subst h
    obtain ⟨h1, h2⟩ := foldl_minByS_le t a
    intro w hw
    rcases List.mem_cons.mp hw with rfl | hw
    · exact h1
    · exact h2 w hw

theorem selMax_mem {l : List Veh} {v : Veh} (h : selMax l = some v) : v ∈ l := by
  match l with
  | [] => simp [selMax] at h
  | a :: t =>
    simp only [selMax, Option.some.injEq] at h
    subst h
    rcases foldl_maxByS_mem t a with h | h
    · rw [h]; exact List.mem_cons_self a t
    · exact List.mem_cons_of_mem a h

theorem selMax_max {l : List Veh} {v : Veh} (h : selMax l = some v) :
    ∀ w ∈ l, w.s ≤ v.s := by
  match l with
  | [] => simp [selMax] at h
  | a :: t =>
    simp only [selMax, Option.some.injEq] at h
    subst h
    obtain ⟨h1, h2⟩ := foldl_maxByS_ge t a
    intro w hw
    rcases List.mem_cons.mp hw with rfl | hw
    · exact h1
    · exact h2 w hw

/-- With a nonnegative buffer the filter keeps exactly the in-band vehicles
strictly ahead within range. -/
theorem vehMatches_ahead {s : ℚ} {lane : ℤ} {prev_size : ℕ} {buffer : ℚ}
    (hb : 0 ≤ buffer) (v : Veh) :
    vehMatches s lane prev_size buffer v = true ↔
      (v.d < 2 + 4 * (lane : ℚ) + 2 ∧ v.d > 2 + 4 * (lane : ℚ) - 2) ∧
        0 < get_vehicle_dist v s prev_size ∧ get_vehicle_dist v s prev_size < buffer := by
  simp [vehMatches, hb]

/-- With a negative buffer the filter keeps exactly the in-band vehicles
strictly behind within range. -/
theorem vehMatches_behind {s : ℚ} {lane : ℤ} {prev_size : ℕ} {buffer : ℚ}
    (hb : ¬ 0 ≤ buffer) (v : Veh) :
    vehMatches s lane prev_size buffer v = true ↔
      (v.d < 2 + 4 * (lane : ℚ) + 2 ∧ v.d > 2 + 4 * (lane : ℚ) - 2) ∧
        get_vehicle_dist v s prev_size < 0 ∧ buffer < get_vehicle_dist v s prev_size := by
  simp [vehMatches, hb]

/-- `get_vehicle` returns `none` exactly when no entry passes the filter. -/
theorem get_vehicle_eq_none {s : ℚ} {lane : ℤ} {sf : List Veh} {prev_size : ℕ}
    {buffer : ℚ} :
    get_vehicle s lane sf prev_size buffer = none ↔
      sf.filter (vehMatches s lane prev_size buffer) = [] := by
  unfold get_vehicle
  split_ifs
  · exact selMin_eq_none
  · exact selMax_eq_none

/-- Any vehicle returned by `get_vehicle` is an entry of the list that
passes the lane-band and distance-window filter. -/
theorem get_vehicle_mem {s : ℚ} {lane : ℤ} {sf : List Veh} {prev_size : ℕ}
    {buffer : ℚ} {v : Veh} (h : get_vehicle s lane sf prev_size buffer = some v) :
    v ∈ sf ∧ vehMatches s lane prev_size buffer v = true := by
  unfold get_vehicle at h
  split_ifs at h
  · exact List.mem_filter.mp (selMin_mem h)
  · exact List.mem_filter.mp (selMax_mem h)

/-- With a nonnegative buffer, the returned vehicle has the smallest raw `s`
entry among all entries passing the filter. -/
theorem get_vehicle_minS {s : ℚ} {lane : ℤ} {sf : List Veh} {prev_size : ℕ}
    {buffer : ℚ} {v : Veh} (hb : 0 ≤ buffer)
    (h : get_vehicle s lane sf prev_size buffer = some v) :
    ∀ w ∈ sf, vehMatches s lane prev_size buffer w = true → v.s ≤ w.s := by
  unfold get_vehicle at h
  rw [if_pos hb] at h
  intro w hw hmw
  exact selMin_min h w (List.mem_filter.mpr ⟨hw, hmw⟩)

/-- With a negative buffer, the returned vehicle has the largest raw `s`
entry among all entries passing the filter. -/
theorem get_vehicle_maxS {s : ℚ} {lane : ℤ} {sf : List Veh} {prev_size : ℕ}
    {buffer : ℚ} {v : Veh} (hb : ¬ 0 ≤ buffer)
    (h : get_vehicle s lane sf prev_size buffer = some v) :
    ∀ w ∈ sf, vehMatches s lane prev_size buffer w = true → w.s ≤ v.s := by
  unfold get_vehicle at h
  rw [if_neg hb] at h
  intro w hw hmw
  exact selMax_max h w (List.mem_filter.mpr ⟨hw, hmw⟩)

/-- The lane returned by `behavior` is the lane-selection chain applied to
the three lane costs. -/
theorem behavior_lane (s d : ℚ) (sf : List Veh) (ref_vel : ℚ) (lane : ℤ)
    (prev_size : ℕ) (buffer w_dist w_speed w_stay w_coll : ℚ) :
    (behavior s d sf ref_vel lane prev_size buffer w_dist w_speed w_stay w_coll).2 =
      laneSelect
        (laneCost s sf prev_size buffer w_dist w_speed w_stay w_coll lane 0)
        (laneCost s sf prev_size buffer w_dist w_speed w_stay w_coll lane 1)
        (laneCost s sf prev_size buffer w_dist w_speed w_stay w_coll lane 2) lane := rfl

/-- The lane-selection chain keeps the lane index in `{0, 1, 2}`. -/
theorem laneSelect_range (lc mc rc : ℚ) (lane : ℤ)
    (h : lane = 0 ∨ lane = 1 ∨ lane = 2) :
    laneSelect lc mc rc lane = 0 ∨ laneSelect lc mc rc lane = 1 ∨
      laneSelect lc mc rc lane = 2 := by
  rcases h with h | h | h <;> subst h <;>
    simp only [laneSelect] <;> split_ifs <;> omega

/-- With all observed speeds at most the speed limit and no observation
closer ahead than `1/20`, a lane's front-vehicle cost term (default weights,
buffer 30) lies in `[0, 849.5]`. -/
theorem frontTerm_bounds {s : ℚ} {sf : List Veh} {prev_size : ℕ} (l : ℤ)
    (hspeed : ∀ v ∈ sf, 2.24 * get_vehicle_speed v ≤ 49.5)
    (hfar : ∀ v ∈ sf, 0 < get_vehicle_dist v s prev_size →
      1/20 ≤ get_vehicle_dist v s prev_size) :
    0 ≤ frontTerm 1 40 s prev_size (get_vehicle s l sf prev_size 30) ∧
      frontTerm 1 40 s prev_size (get_vehicle s l sf prev_size 30) ≤ 1699/2 := by
  cases hgv : get_vehicle s l sf prev_size 30 with
  | none => refine ⟨?_, ?_⟩ <;> simp [frontTerm] <;> norm_num
  | some v =>
    obtain ⟨hmem, hmatch⟩ := get_vehicle_mem hgv
    rw [vehMatches_ahead (by norm_num) v] at hmatch
    obtain ⟨hband, hdpos, hdlt⟩ := hmatch
    have hd05 : 1/20 ≤ get_vehicle_dist v s prev_size := hfar v hmem hdpos
    have hsp := hspeed v hmem
    have hsp0 : 0 ≤ 2.24 * get_vehicle_speed v :=
      mul_nonneg (by norm_num) (speed_nonneg v)
    simp only [frontTerm, one_mul]
    constructor
    · have h2 : 0 ≤ 40 / get_vehicle_dist v s prev_size :=
        le_of_lt (div_pos (by norm_num) hdpos)
      linarith
    · have h2 : 40 / get_vehicle_dist v s prev_size ≤ 800 := by
        rw [div_le_iff hdpos]; linarith
      linarith

/-- The ego lane's cost (default weights) is at most `844.5` under the same
hypotheses: the front term bounded by `849.5`, minus the stay bonus `5`,
with no collision penalty on the ego's own lane. -/
theorem laneCost_cur_le {s : ℚ} {sf : List Veh} {prev_size : ℕ} (egoLane : ℤ)
    (hspeed : ∀ v ∈ sf, 2.24 * get_vehicle_speed v ≤ 49.5)
    (hfar : ∀ v ∈ sf, 0 < get_vehicle_dist v s prev_size →
      1/20 ≤ get_vehicle_dist v s prev_size) :
    laneCost s sf prev_size 30 40 1 5 1000 egoLane egoLane ≤ 1689/2 := by
  have h := (frontTerm_bounds egoLane hspeed hfar).2
  simp only [laneCost, if_pos rfl, ne_eq, not_true_eq_false, and_false, if_false,
    eq_self_iff_true, if_true, add_zero]
  linarith

/-- A non-ego lane with a vehicle closely behind costs at least `1000`
(default weights): nonnegative front term, no stay bonus, plus the
collision penalty. -/
theorem laneCost_rear_ge {s : ℚ} {sf : List Veh} {prev_size : ℕ}
    {egoLane L : ℤ} (hne : egoLane ≠ L)
    (hrear : (get_vehicle s L sf prev_size (-30 / 3)).isSome = true)
    (hspeed : ∀ v ∈ sf, 2.24 * get_vehicle_speed v ≤ 49.5)
    (hfar : ∀ v ∈ sf, 0 < get_vehicle_dist v s prev_size →
      1/20 ≤ get_vehicle_dist v s prev_size) :
    1000 ≤ laneCost s sf prev_size 30 40 1 5 1000 egoLane L := by
  have h := (frontTerm_bounds L hspeed hfar).1
  have hcond : (get_vehicle s L sf prev_size (-30 / 3)).isSome = true ∧ egoLane ≠ L :=
    ⟨hrear, hne⟩
  simp only [laneCost, if_neg hne, sub_zero, if_pos hcond]
  linarith

theorem laneSelect_zero_of_mid_ge {lc mc rc : ℚ} (h : ¬ mc < lc) :
    laneSelect lc mc rc 0 = 0 := by
  simp only [laneSelect]
  norm_num [h]

theorem laneSelect_one_ne_zero {lc mc rc : ℚ} (h : ¬ lc < mc) :
    laneSelect lc mc rc 1 ≠ 0 := by
  simp only [laneSelect]
  norm_num [h]
  split_ifs <;> first | omega | tauto

theorem laneSelect_one_ne_two {lc mc rc : ℚ} (h : ¬ rc < mc) :
    laneSelect lc mc rc 1 ≠ 2 := by
  simp only [laneSelect]
  norm_num [h]
  split_ifs <;> first | omega | tauto

theorem laneSelect_two_of_mid_ge {lc mc rc : ℚ} (h : ¬ mc < rc) :
    laneSelect lc mc rc 2 = 2 := by
  simp only [laneSelect]
  norm_num [h]

/-- Each iteration of the point-generation loop emits one point. -/
theorem genPoints_length (f : ℚ → ℚ) (tx td rv c sn rx ry : ℚ) :
    ∀ (n : ℕ) (x0 : ℚ), (genPoints f tx td rv c sn rx ry n x0).length = n := by
  intro n
  induction n with
  | zero => intro x0; rfl
  | succ n ih => intro x0; simp [genPoints, ih]

/-! ### Claim theorems -/

/-- C6: every front vehicle returned by `get_vehicle` with a nonnegative
range bound has strictly positive projected distance, so the
`w_dist / distanceToFront` term of the lane cost never divides by exactly
zero, and for any positive distance the penalty `40 / distance` is a
strictly positive, finite rational. -/
theorem C6_front_distance_positive (s : ℚ) (lane : ℤ) (sf : List Veh)
    (prev_size : ℕ) (buffer : ℚ) (v : Veh) (hb : 0 ≤ buffer)
    (h : get_vehicle s lane sf prev_size buffer = some v) :
    0 < get_vehicle_dist v s prev_size ∧
      get_vehicle_dist v s prev_size ≠ 0 ∧
      0 < 40 / get_vehicle_dist v s prev_size := by
  obtain ⟨hmem, hmatch⟩ := get_vehicle_mem h
  rw [vehMatches_ahead hb v] at hmatch
  obtain ⟨hband, hdpos, hdlt⟩ := hmatch
  exact ⟨hdpos, ne_of_gt hdpos, div_pos (by norm_num) hdpos⟩

/-- Witness for C6: a stopped vehicle 10 ahead in lane 0 is returned by
`get_vehicle` and its distance is strictly positive. -/
theorem C6_front_distance_positive_witness :
    0 < get_vehicle_dist ⟨0, 0, 0, 0, 0, 10, 2⟩ 0 0 ∧
      get_vehicle_dist ⟨0, 0, 0, 0, 0, 10, 2⟩ 0 0 ≠ 0 ∧
      0 < 40 / get_vehicle_dist ⟨0, 0, 0, 0, 0, 10, 2⟩ 0 0 := by
  apply C6_front_distance_positive 0 0 [⟨0, 0, 0, 0, 0, 10, 2⟩] 0 30 _ (by norm_num)
  have hsp : get_vehicle_speed ⟨0, 0, 0, 0, 0, 10, 2⟩ = 0 := speed_vy0 _ rfl (by norm_num)
  norm_num [get_vehicle, vehMatches, get_vehicle_dist, List.filter, selMin, hsp]

/-- Vehicle 10 ahead at observed `s = 10` moving at speed 10 (projected
arc length 20 with a 50-step horizon). -/
def c4A : Veh := ⟨0, 0, 0, 10, 0, 10, 2⟩

/-- Stopped vehicle at observed `s = 12` (projected arc length 12). -/
def c4B : Veh := ⟨1, 0, 0, 0, 0, 12, 2⟩

/-- C4 counterexample: both vehicles qualify in lane 0 for ego at `s = 0`
with a 50-step horizon, the second has the strictly smaller projected arc
length (12 vs 20, equal to projected distance here since the ego is at 0),
yet `get_vehicle` returns the first: the selection sorts by the raw
observed `s` entry (10 < 12), not by projected arc length. -/
theorem C4_counterexample :
    get_vehicle 0 0 [c4A, c4B] 50 30 = some c4A ∧
      vehMatches 0 0 50 30 c4B = true ∧
      get_vehicle_dist c4B 0 50 < get_vehicle_dist c4A 0 50 := by
  have hA : get_vehicle_speed ⟨0, 0, 0, 10, 0, 10, 2⟩ = 10 := speed_vy0 _ rfl (by norm_num)
  have hB : get_vehicle_speed ⟨1, 0, 0, 0, 0, 12, 2⟩ = 0 := speed_vy0 _ rfl (by norm_num)
  refine ⟨?_, ?_, ?_⟩ <;>
    norm_num [get_vehicle, vehMatches, get_vehicle_dist, List.filter, selMin,
      minByS, hA, hB, c4A, c4B]

/-- C4 (amended): `get_vehicle` returns an entry of the list that passes
the lane-band and distance-window filter, and among all entries passing the
filter it has the smallest raw observed arc length (`veh[5]`) when the
bound is nonnegative, and the largest when the bound is negative — the
nearest vehicle by observed (not projected) arc length. -/
theorem C4_nearest_by_observed_s (s : ℚ) (lane : ℤ) (sf : List Veh)
    (prev_size : ℕ) (buffer : ℚ) (v : Veh)
    (h : get_vehicle s lane sf prev_size buffer = some v) :
    v ∈ sf ∧ vehMatches s lane prev_size buffer v = true ∧
      (0 ≤ buffer →
        (0 < get_vehicle_dist v s prev_size ∧ get_vehicle_dist v s prev_size < buffer) ∧
          ∀ w ∈ sf, vehMatches s lane prev_size buffer w = true → v.s ≤ w.s) ∧
      (¬ 0 ≤ buffer →
        (get_vehicle_dist v s prev_size < 0 ∧ buffer < get_vehicle_dist v s prev_size) ∧
          ∀ w ∈ sf, vehMatches s lane prev_size buffer w = true → w.s ≤ v.s) := by
  obtain ⟨hmem, hmatch⟩ := get_vehicle_mem h
  refine ⟨hmem, hmatch, ?_, ?_⟩
  · intro hb
    rw [vehMatches_ahead hb v] at hmatch
    exact ⟨hmatch.2, get_vehicle_minS hb h⟩
  · intro hb
    rw [vehMatches_behind hb v] at hmatch
    exact ⟨hmatch.2, get_vehicle_maxS hb h⟩

/-- Witness for the amended C4, at the counterexample's input: the returned
vehicle is in the list, qualifies, and minimizes the observed arc length. -/
theorem C4_nearest_by_observed_s_witness :
    c4A ∈ [c4A, c4B] ∧
      (0 < get_vehicle_dist c4A 0 50 ∧ get_vehicle_dist c4A 0 50 < 30) ∧
      ∀ w ∈ [c4A, c4B], vehMatches 0 0 50 30 w = true → c4A.s ≤ w.s := by
  have hA : get_vehicle_speed ⟨0, 0, 0, 10, 0, 10, 2⟩ = 10 := speed_vy0 _ rfl (by norm_num)
  have hB : get_vehicle_speed ⟨1, 0, 0, 0, 0, 12, 2⟩ = 0 := speed_vy0 _ rfl (by norm_num)
  have hsome : get_vehicle 0 0 [c4A, c4B] 50 30 = some c4A := by
    norm_num [get_vehicle, vehMatches, get_vehicle_dist, List.filter, selMin,
      minByS, hA, hB, c4A, c4B]
  have h := C4_nearest_by_observed_s 0 0 [c4A, c4B] 50 30 c4A hsome
  exact ⟨h.1, (h.2.2.1 (by norm_num)).1, (h.2.2.1 (by norm_num)).2⟩

/-- C9: the lane starts at 1 and every `behavior` call maps a lane in
`{0,1,2}` to a lane in `{0,1,2}`, for all observations, weights and state. -/
theorem C9_lane_in_range :
    (initialLane = 0 ∨ initialLane = 1 ∨ initialLane = 2) ∧
      ∀ (s d rv : ℚ) (sf : List Veh) (lane : ℤ) (prev_size : ℕ)
        (buffer w_dist w_speed w_stay w_coll : ℚ),
        (lane = 0 ∨ lane = 1 ∨ lane = 2) →
        ((behavior s d sf rv lane prev_size buffer w_dist w_speed w_stay w_coll).2 = 0 ∨
          (behavior s d sf rv lane prev_size buffer w_dist w_speed w_stay w_coll).2 = 1 ∨
          (behavior s d sf rv lane prev_size buffer w_dist w_speed w_stay w_coll).2 = 2) := by
  refine ⟨Or.inr (Or.inl rfl), ?_⟩
  intro s d rv sf lane prev_size buffer w_dist w_speed w_stay w_coll hlane
  rw [behavior_lane]
  exact laneSelect_range _ _ _ lane hlane

/-- Witness for C9 at a concrete call from the initial state. -/
theorem C9_lane_in_range_witness :
    ((1 : ℤ) = 0 ∨ (1 : ℤ) = 1 ∨ (1 : ℤ) = 2) ∧
      ((behavior 0 0 [] 0 1 0 30 40 1 5 1000).2 = 0 ∨
        (behavior 0 0 [] 0 1 0 30 40 1 5 1000).2 = 1 ∨
        (behavior 0 0 [] 0 1 0 30 40 1 5 1000).2 = 2) :=
  ⟨Or.inr (Or.inl rfl),
    C9_lane_in_range.2 0 0 0 [] 1 0 30 40 1 5 1000 (Or.inr (Or.inl rfl))⟩

/-- Stopped vehicle 1 ahead in lane 0. -/
def c2a : Veh := ⟨0, 0, 0, 0, 0, 1, 2⟩

/-- Vehicle 10 ahead in lane 1 moving at speed 10. -/
def c2b : Veh := ⟨1, 0, 0, 10, 0, 10, 6⟩

/-- C2 counterexample: from lane 0, with a close stopped car in lane 0, a
moderate car in lane 1 and lane 2 clear, the costs satisfy
`right < mid < left`, so the first rule moves 0→1 and the second rule's
precondition still holds and moves 1→2 in the same call: the lane changes
by two in one cycle. -/
theorem C2_counterexample :
    (behavior 0 0 [c2a, c2b] 10 0 0 30 40 1 5 1000).2 = 2 ∧
      ¬ ((behavior 0 0 [c2a, c2b] 10 0 0 30 40 1 5 1000).2 - 0).natAbs ≤ 1 := by
  have ha : get_vehicle_speed ⟨0, 0, 0, 0, 0, 1, 2⟩ = 0 := speed_vy0 _ rfl (by norm_num)
  have hb : get_vehicle_speed ⟨1, 0, 0, 10, 0, 10, 6⟩ = 10 := speed_vy0 _ rfl (by norm_num)
  have h : (behavior 0 0 [c2a, c2b] 10 0 0 30 40 1 5 1000).2 = 2 := by
    norm_num [behavior, laneCost, frontTerm, laneSelect, get_vehicle, vehMatches,
      get_vehicle_dist, List.filter, ha, hb, c2a, c2b, selMin, selMax, minByS, maxByS]
  refine ⟨h, ?_⟩
  rw [h]
  decide

/-- C2 (amended): the lane moves at most one index per triggered rule, but
from an edge lane a rightward (or leftward) move can chain through lane 1
into the far lane within one call, so the lane changes by at most two per
call, and by at most one when the input lane is 1. -/
theorem C2_single_or_chained_move (s d rv : ℚ) (sf : List Veh) (lane : ℤ)
    (prev_size : ℕ) (buffer w_dist w_speed w_stay w_coll : ℚ)
    (hlane : lane = 0 ∨ lane = 1 ∨ lane = 2) :
    ((behavior s d sf rv lane prev_size buffer w_dist w_speed w_stay w_coll).2 - lane).natAbs ≤ 2 ∧
      (lane = 1 →
        ((behavior s d sf rv lane prev_size buffer w_dist w_speed w_stay w_coll).2 - lane).natAbs ≤ 1) := by
  have hr : (behavior s d sf rv lane prev_size buffer w_dist w_speed w_stay w_coll).2 = 0 ∨
      (behavior s d sf rv lane prev_size buffer w_dist w_speed w_stay w_coll).2 = 1 ∨
      (behavior s d sf rv lane prev_size buffer w_dist w_speed w_stay w_coll).2 = 2 := by
    rw [behavior_lane]
    exact laneSelect_range _ _ _ lane hlane
  constructor
  · rcases hlane with h | h | h <;> rcases hr with h1 | h1 | h1 <;> rw [h, h1] at * <;> omega
  · intro h1
    rcases hr with h2 | h2 | h2 <;> rw [h1, h2] at * <;> omega

/-- Witness for the amended C2 at a concrete call. -/
theorem C2_single_or_chained_move_witness :
    ((behavior 0 0 [] 0 1 0 30 40 1 5 1000).2 - 1).natAbs ≤ 2 ∧
      ((1 : ℤ) = 1 →
        ((behavior 0 0 [] 0 1 0 30 40 1 5 1000).2 - 1).natAbs ≤ 1) := by
  have h := C2_single_or_chained_move 0 0 0 [] 1 0 30 40 1 5 1000 (Or.inr (Or.inl rfl))
  exact ⟨h.1, fun _ => h.2 rfl⟩

/-- Stopped vehicle `1/100` ahead of the ego in lane 1. -/
def c3mfront : Veh := ⟨0, 0, 0, 0, 0, 1/100, 6⟩

/-- Stopped vehicle 5 behind in lane 0. -/
def c3rear0 : Veh := ⟨1, 0, 0, 0, 0, -5, 2⟩

/-- Stopped vehicle 5 behind in lane 2. -/
def c3rear2 : Veh := ⟨2, 0, 0, 0, 0, -5, 10⟩

/-- C3 counterexample: ego in lane 1 with a stopped car `1/100` ahead
(cost `≈ 4044.5`), and rear vehicles within the rear bound in both adjacent
lanes (costs `1000` each).  Lane 2's cost, collision penalty included, is
still far below lane 1's, so the call switches into lane 2 even though a
vehicle is closely behind there. -/
theorem C3_counterexample :
    (get_vehicle 0 2 [c3mfront, c3rear0, c3rear2] 0 (-30 / 3)).isSome = true ∧
      (1 : ℤ) ≠ 2 ∧
      (behavior 0 0 [c3mfront, c3rear0, c3rear2] 10 1 0 30 40 1 5 1000).2 = 2 := by
  have h0 : get_vehicle_speed ⟨0, 0, 0, 0, 0, 1/100, 6⟩ = 0 := speed_vy0 _ rfl (by norm_num)
  have h1 : get_vehicle_speed ⟨1, 0, 0, 0, 0, -5, 2⟩ = 0 := speed_vy0 _ rfl (by norm_num)
  have h2 : get_vehicle_speed ⟨2, 0, 0, 0, 0, -5, 10⟩ = 0 := speed_vy0 _ rfl (by norm_num)
  refine ⟨?_, by decide, ?_⟩ <;>
    norm_num [behavior, laneCost, frontTerm, laneSelect, get_vehicle, vehMatches,
      get_vehicle_dist, List.filter, h0, h1, h2, c3mfront, c3rear0, c3rear2,
      selMin, selMax, minByS, maxByS]

/-- C3 (amended): a rear vehicle within the rear bound in an adjacent lane
`L` raises `L`'s cost by the collision weight 1000, which prevents a
same-cycle switch into `L` provided no observed vehicle is faster than the
speed limit and no observed vehicle is projected closer than `1/20` ahead
of the ego (otherwise the current lane's closeness penalty `40/distance`
can exceed the collision penalty and the switch still happens, as in the
counterexample). -/
theorem C3_rear_blocks_switch (s d rv : ℚ) (sf : List Veh) (prev_size : ℕ)
    (lane L : ℤ)
    (hadj : (lane = 0 ∧ L = 1) ∨ (lane = 1 ∧ L = 0) ∨ (lane = 1 ∧ L = 2) ∨
      (lane = 2 ∧ L = 1))
    (hrear : (get_vehicle s L sf prev_size (-30 / 3)).isSome = true)
    (hspeed : ∀ v ∈ sf, 2.24 * get_vehicle_speed v ≤ 49.5)
    (hfar : ∀ v ∈ sf, 0 < get_vehicle_dist v s prev_size →
      1/20 ≤ get_vehicle_dist v s prev_size) :
    (behavior s d sf rv lane prev_size 30 40 1 5 1000).2 ≠ L := by
  rw [behavior_lane]
  have hne : lane ≠ L := by
    rcases hadj with ⟨h1, h2⟩ | ⟨h1, h2⟩ | ⟨h1, h2⟩ | ⟨h1, h2⟩ <;> subst h1 <;> subst h2 <;>
      decide
  have hLge := laneCost_rear_ge hne hrear hspeed hfar
  have hcur := laneCost_cur_le lane hspeed hfar
  rcases hadj with ⟨h1, h2⟩ | ⟨h1, h2⟩ | ⟨h1, h2⟩ | ⟨h1, h2⟩ <;> subst h1 <;> subst h2
  · rw [laneSelect_zero_of_mid_ge (by linarith)]; decide
  · exact laneSelect_one_ne_zero (by linarith)
  · exact laneSelect_one_ne_two (by linarith)
  · rw [laneSelect_two_of_mid_ge (by linarith)]; decide

/-- Witness for the amended C3: ego in lane 1, a single stopped vehicle 5
behind in lane 0; the call does not move into lane 0. -/
theorem C3_rear_blocks_switch_witness :
    (get_vehicle 0 0 [⟨1, 0, 0, 0, 0, -5, 2⟩] 0 (-30 / 3)).isSome = true ∧
      (behavior 0 0 [⟨1, 0, 0, 0, 0, -5, 2⟩] 10 1 0 30 40 1 5 1000).2 ≠ 0 := by
  have h1 : get_vehicle_speed ⟨1, 0, 0, 0, 0, -5, 2⟩ = 0 := speed_vy0 _ rfl (by norm_num)
  have hrear : (get_vehicle 0 0 [⟨1, 0, 0, 0, 0, -5, 2⟩] 0 (-30 / 3)).isSome = true := by
    norm_num [get_vehicle, vehMatches, get_vehicle_dist, List.filter, h1, selMax]
  refine ⟨hrear, ?_⟩
  apply C3_rear_blocks_switch 0 0 10 [⟨1, 0, 0, 0, 0, -5, 2⟩] 0 1 0
    (Or.inr (Or.inl ⟨rfl, rfl⟩)) hrear
  · intro v hv
    rw [List.mem_singleton] at hv
    subst hv
    rw [h1]
    norm_num
  · intro v hv
    rw [List.mem_singleton] at hv
    subst hv
    intro hpos
    rw [get_vehicle_dist, h1] at hpos
    norm_num at hpos

/-- C10: if lane `L` has no qualifying front vehicle, adding one vehicle in
lane `L`'s band, strictly ahead within the 30-unit range bound and slower
than the speed limit, strictly increases lane `L`'s computed cost (default
weights), all other inputs unchanged. -/
theorem C10_blocker_increases_cost (s : ℚ) (sf : List Veh) (prev_size : ℕ)
    (egoLane L : ℤ) (u : Veh)
    (hnone : get_vehicle s L sf prev_size 30 = none)
    (hband : u.d < 2 + 4 * (L : ℚ) + 2 ∧ u.d > 2 + 4 * (L : ℚ) - 2)
    (hahead : 0 < get_vehicle_dist u s prev_size)
    (hrange : get_vehicle_dist u s prev_size < 30)
    (hslow : 2.24 * get_vehicle_speed u < 49.5) :
    laneCost s sf prev_size 30 40 1 5 1000 egoLane L <
      laneCost s (sf ++ [u]) prev_size 30 40 1 5 1000 egoLane L := by
  have hfilter : sf.filter (vehMatches s L prev_size 30) = [] :=
    get_vehicle_eq_none.mp hnone
  have hu : vehMatches s L prev_size 30 u = true :=
    (vehMatches_ahead (by norm_num) u).mpr ⟨hband, hahead, hrange⟩
  have hnew : get_vehicle s L (sf ++ [u]) prev_size 30 = some u := by
    unfold get_vehicle
    rw [List.filter_append, hfilter]
    norm_num [List.filter, hu, selMin]
  have hur : vehMatches s L prev_size (-30 / 3) u = false := by
    rw [Bool.eq_false_iff, Ne, vehMatches_behind (by norm_num)]
    rintro ⟨-, hneg, -⟩
    linarith
  have hfilter_u : List.filter (vehMatches s L prev_size (-30 / 3)) [u] = [] := by
    simp only [List.filter_cons, hur, Bool.false_eq_true, if_false, List.filter_nil]
  have hrear_eq : get_vehicle s L (sf ++ [u]) prev_size (-30 / 3) =
      get_vehicle s L sf prev_size (-30 / 3) := by
    unfold get_vehicle
    rw [List.filter_append, hfilter_u, List.append_nil]
  have h1 : 0 < (49.5 : ℚ) - 2.24 * get_vehicle_speed u := by linarith
  have h2 : 0 < 40 / get_vehicle_dist u s prev_size := div_pos (by norm_num) hahead
  simp only [laneCost, hnone, hnew, hrear_eq, frontTerm, one_mul]
  linarith

/-- Witness for C10: empty road, then one stopped vehicle 10 ahead in lane
0 while the ego occupies lane 1; lane 0's cost strictly increases. -/
theorem C10_blocker_increases_cost_witness :
    laneCost 0 [] 0 30 40 1 5 1000 1 0 <
      laneCost 0 ([] ++ [⟨0, 0, 0, 0, 0, 10, 2⟩]) 0 30 40 1 5 1000 1 0 := by
  have hsp : get_vehicle_speed ⟨0, 0, 0, 0, 0, 10, 2⟩ = 0 := speed_vy0 _ rfl (by norm_num)
  apply C10_blocker_increases_cost 0 [] 0 1 0 ⟨0, 0, 0, 0, 0, 10, 2⟩
  · simp [get_vehicle, selMin, selMax]
  · norm_num
  · norm_num [get_vehicle_dist, hsp]
  · norm_num [get_vehicle_dist, hsp]
  · norm_num [hsp]

/-- Stopped vehicle 5 behind the ego in lane 0. -/
def c1rear0 : Veh := ⟨0, 0, 0, 0, 0, -5, 2⟩

/-- Stopped vehicle 5 behind the ego in lane 2. -/
def c1rear2 : Veh := ⟨1, 0, 0, 0, 0, -5, 10⟩

/-- Stopped vehicle 10 ahead of the ego in lane 2. -/
def c1front2 : Veh := ⟨2, 0, 0, 0, 0, 10, 10⟩

/-- C1: the claim describes a per-lane target selection, but the C++
`switch` has no `break` statements, so the speed-control target is always
the lane-2 front vehicle.  Here the resulting lane is 1 and lane 1 has no
front vehicle, so the claim prescribes an increase of `referenceSpeed`
(20 < 49.5), yet the code follows the stopped lane-2 car and decreases it
to `19.776`. -/
theorem C1_fallthrough_target :
    behavior 0 0 [c1rear0, c1rear2, c1front2] 20 1 0 30 40 1 5 1000 = (19.776, 1) ∧
      get_vehicle 0 1 [c1rear0, c1rear2, c1front2] 0 30 = none ∧
      (19.776 : ℚ) < 20 := by
  have h0 : get_vehicle_speed ⟨0, 0, 0, 0, 0, -5, 2⟩ = 0 := speed_vy0 _ rfl (by norm_num)
  have h1 : get_vehicle_speed ⟨1, 0, 0, 0, 0, -5, 10⟩ = 0 := speed_vy0 _ rfl (by norm_num)
  have h2 : get_vehicle_speed ⟨2, 0, 0, 0, 0, 10, 10⟩ = 0 := speed_vy0 _ rfl (by norm_num)
  refine ⟨?_, ?_, by norm_num⟩ <;>
    norm_num [behavior, laneCost, frontTerm, laneSelect, get_vehicle, vehMatches,
      get_vehicle_dist, List.filter, h0, h1, h2, c1rear0, c1rear2, c1front2,
      selMin, selMax, minByS, maxByS]

/-- C5: from the initial state (`referenceSpeed = 0`, lane 1), a telemetry
cycle whose only observation is a stopped vehicle 10 ahead in lane 2 makes
`behavior` hold `referenceSpeed` at 0 (the fall-through target is the
stopped car, and neither the decrease nor the increase branch fires), so
the step divisor `.02 * referenceSpeed / 2.24` of that same cycle's
trajectory loop is exactly 0. -/
theorem C5_zero_divisor_reachable :
    (behavior 0 0 [⟨0, 0, 0, 0, 0, 10, 10⟩] initialRefVel initialLane 0
        30 40 1 5 1000).1 = 0 ∧
      stepDivisor (behavior 0 0 [⟨0, 0, 0, 0, 0, 10, 10⟩] initialRefVel initialLane 0
        30 40 1 5 1000).1 = 0 := by
  have h0 : get_vehicle_speed ⟨0, 0, 0, 0, 0, 10, 10⟩ = 0 := speed_vy0 _ rfl (by norm_num)
  have h : (behavior 0 0 [⟨0, 0, 0, 0, 0, 10, 10⟩] initialRefVel initialLane 0
      30 40 1 5 1000).1 = 0 := by
    norm_num [behavior, laneCost, frontTerm, laneSelect, get_vehicle, vehMatches,
      get_vehicle_dist, List.filter, h0, selMin, selMax, initialRefVel, initialLane]
  rw [h]
  exact ⟨rfl, by norm_num [stepDivisor]⟩

/-- C7: the output trajectory has exactly 50 points whenever the carried
path tail has fewer than 50, and equals the tail unchanged when the tail
already has 50 or more points. -/
theorem C7_output_length (prev : List (ℚ × ℚ)) (f : ℚ → ℚ) (rv c sn rx ry : ℚ) :
    (prev.length < 50 → (nextVals prev f rv c sn rx ry).length = 50) ∧
      (50 ≤ prev.length → nextVals prev f rv c sn rx ry = prev) := by
  constructor
  · intro h
    simp only [nextVals, List.length_append, genPoints_length]
    omega
  · intro h
    simp only [nextVals, Nat.sub_eq_zero_of_le h, genPoints, List.append_nil]

/-- Witness for C7: an empty tail yields 50 points; a 50-point tail is
returned untouched. -/
theorem C7_output_length_witness :
    (nextVals [] (fun _ => 0) 1 1 0 0 0).length = 50 ∧
      nextVals (List.replicate 50 ((0 : ℚ), (0 : ℚ))) (fun _ => 0) 1 1 0 0 0 =
        List.replicate 50 ((0 : ℚ), (0 : ℚ)) :=
  ⟨(C7_output_length [] (fun _ => 0) 1 1 0 0 0).1 (by norm_num),
    (C7_output_length (List.replicate 50 ((0 : ℚ), (0 : ℚ))) (fun _ => 0) 1 1 0 0 0).2
      (by simp)⟩

/-- C8: the first `k` points of the output trajectory are exactly the `k`
carried-over path-tail points, in order and unmodified. -/
theorem C8_tail_carried_verbatim (prev : List (ℚ × ℚ)) (f : ℚ → ℚ)
    (rv c sn rx ry : ℚ) :
    (nextVals prev f rv c sn rx ry).take prev.length = prev := by
  simp only [nextVals]
  exact List.take_left prev _

end PathPlan
